import Mathlib

/-!
Shallow embedding of the reservation admission core of
`src/context/ReservationContext.tsx` (salagourmet).

The stateful React context is modelled as explicit state passing: the
Firestore collection is the `store` list, the provider's `reservations`
state variable is the `cache` list, and each operation is a pure function
from the pre-state (plus the outcome of the store I/O, passed as a
boolean flag) to a result record holding the post-state, the toast
messages the user sees, and the exception, if any, that propagates to the
immediate caller of the async function.

Calendar dates are modelled as day serial numbers (`Int`), produced by a
model of date-fns `parseISO` restricted to date-only ISO 8601 strings
(extended `YYYY-MM-DD` and basic `YYYYMMDD` forms, both of which date-fns
accepts); invalid strings parse to `none`, matching the Invalid-Date
(`NaN`) behaviour in which every `<=`/`>=` comparison is false.
-/

namespace SalaGourmet

/-- Leap-year test, proleptic Gregorian calendar. -/
def isLeapYear (y : Nat) : Bool :=
  (y % 4 == 0 && y % 100 != 0) || y % 400 == 0

/-- Number of days in month `m` (1..12) of year `y`. -/
def daysInMonth (y m : Nat) : Nat :=
  if m == 2 then (if isLeapYear y then 29 else 28)
  else if m == 4 || m == 6 || m == 9 || m == 11 then 30
  else 31

/-- Civil date (proleptic Gregorian, year 0..9999) to a day serial number.
The serial is days-from-civil shifted by 400 years so that the whole
computation stays in `Nat`; only differences and weekday residues of the
serial are ever used, so the shift is immaterial. -/
def civilToDay (y m d : Nat) : Nat :=
  let y2 := if m ≤ 2 then y + 399 else y + 400
  let era := y2 / 400
  let yoe := y2 % 400
  let mp := (m + 9) % 12
  let doy := (153 * mp + 2) / 5 + (d - 1)
  let doe := yoe * 365 + yoe / 4 - yoe / 100 + doy
  era * 146097 + doe

/-- Numeric value of a decimal digit character. -/
def digitVal (c : Char) : Nat := c.toNat - 48

/-- Validate a year/month/day triple and return its day serial. -/
def mkDate (y m d : Nat) : Option Int :=
  if 1 ≤ m && m ≤ 12 && 1 ≤ d && d ≤ daysInMonth y m then
    some (civilToDay y m d : Int)
  else
    none

/-- Model of date-fns `parseISO`, restricted to date-only ISO 8601 strings:
extended format `YYYY-MM-DD` and basic format `YYYYMMDD` (both accepted by
date-fns). Returns the day serial number of the calendar date, or `none`
for anything else (date-fns Invalid Date). -/
def parseISO (s : String) : Option Int :=
  match s.toList with
  | [y1, y2, y3, y4, '-', m1, m2, '-', d1, d2] =>
    if [y1, y2, y3, y4, m1, m2, d1, d2].all Char.isDigit then
      mkDate (digitVal y1 * 1000 + digitVal y2 * 100 + digitVal y3 * 10 + digitVal y4)
             (digitVal m1 * 10 + digitVal m2)
             (digitVal d1 * 10 + digitVal d2)
    else none
  | [y1, y2, y3, y4, m1, m2, d1, d2] =>
    if [y1, y2, y3, y4, m1, m2, d1, d2].all Char.isDigit then
      mkDate (digitVal y1 * 1000 + digitVal y2 * 100 + digitVal y3 * 10 + digitVal y4)
             (digitVal m1 * 10 + digitVal m2)
             (digitVal d1 * 10 + digitVal d2)
    else none
  | _ => none

/-- `startOfWeek(n, {weekStartsOn: 1})` at day granularity: the Monday
on or before day `n`.  Day serial `civilToDay 2024 1 1` is a Monday and
`(civilToDay 2024 1 1 + 2) % 7 = 0`, so `(n + 2) % 7` is the number of
days since the last Monday. -/
def mondayOf (n : Int) : Int := n - (n + 2) % 7

/-- The TypeScript type of the `status` field is the literal type
`'confirmed'`: a one-value type. -/
inductive Status where
  | confirmed
deriving DecidableEq, Repr

/-- A reservation record (interface `Reservation`): the Firestore
`Timestamp` of `createdAt` is modelled as a `Nat`. -/
structure Reservation where
  id : String
  portal : String
  floor : String
  door : String
  date : String
  status : Status
  createdAt : Nat
  userId : String
deriving DecidableEq, Repr

/-- `Omit<Reservation, 'id' | 'createdAt' | 'userId'>`: caller-supplied
creation data.  Note there is no `userId` field: the caller cannot supply
one. -/
structure ReservationInput where
  portal : String
  floor : String
  door : String
  date : String
  status : Status
deriving DecidableEq, Repr

/-- The authenticated Firebase user, opaque beyond its `uid`. -/
structure User where
  uid : String
deriving DecidableEq, Repr

/-- Provider state: `store` is the Firestore `reservations` collection,
`cache` is the provider's `reservations` React state. -/
structure St where
  store : List Reservation
  cache : List Reservation
deriving DecidableEq, Repr

/-- Model of JavaScript `String.prototype.toUpperCase()`: character-wise
upper-casing (ASCII case mapping suffices for the door labels here). -/
def toUpperCase (s : String) : String := ⟨s.data.map Char.toUpper⟩

/-- The single filter predicate of `getWeeklyApartmentReservationsCount`
(the body of `reservations.filter(res => ...)`): the reservation's parsed
date lies in `[weekStart, weekEnd]`, and the unit matches — `portal` and
`floor` exactly, `door` case-insensitively.  A reservation whose date
does not parse (Invalid Date) fails every comparison. -/
def matchesWeekUnit (portal floor door : String) (weekStart weekEnd : Int)
    (res : Reservation) : Bool :=
  match parseISO res.date with
  | none => false
  | some resDate =>
    decide (weekStart ≤ resDate) && decide (resDate ≤ weekEnd) &&
    res.portal == portal && res.floor == floor &&
    toUpperCase res.door == toUpperCase door

/-- `getWeeklyApartmentReservationsCount(portal, floor, door, date)`:
parses `date`, computes `weekStart = startOfWeek(date, {weekStartsOn: 1})`
and `weekEnd = endOfWeek(date, {weekStartsOn: 1})` (at day granularity,
`weekStart + 6`), and counts the reservations matching the window and the
unit.  An unparsable `date` yields Invalid Date, every comparison against
which is false, hence count 0. -/
def getWeeklyApartmentReservationsCount (reservations : List Reservation)
    (portal floor door date : String) : Nat :=
  match parseISO date with
  | none => 0
  | some reservationDate =>
    let weekStart := mondayOf reservationDate
    let weekEnd := weekStart + 6
    (reservations.filter (matchesWeekUnit portal floor door weekStart weekEnd)).length

/-- The exception, if any, thrown by `createReservation` to its caller,
identified by the thrown error's message:
`unauthenticated` = 'Usuario no autenticado',
`dateAlreadyReserved` = 'Esta fecha ya está reservada',
`weeklyQuotaExceeded` = 'Esta vivienda ya ha alcanzado el límite de 2
reservas esta semana', `storeError` = the opaque error raised by `addDoc`
and rethrown by the catch block. -/
inductive CreateErr where
  | unauthenticated
  | dateAlreadyReserved
  | weeklyQuotaExceeded
  | storeError
deriving DecidableEq, Repr

/-- Result of a `createReservation` call: post-state and the exception
propagating to the immediate caller (`none` = the promise fulfills). -/
structure CreateResult where
  st : St
  thrown : Option CreateErr
deriving DecidableEq, Repr

/-- Result of a `loadReservations` call: post-state, the error toast if
one was shown, and the exception propagating to the caller.  The catch
block only logs and toasts, so `thrown` is `none` on both paths. -/
structure LoadResult where
  st : St
  toastError : Option String
  thrown : Option String
deriving DecidableEq, Repr

/-- `loadReservations()`: reads the whole collection and replaces the
cache with it (`setReservations(loadedReservations)`).  `listOk` is the
outcome of the `getDocs` I/O; on failure the catch block logs and toasts
without rethrowing and without touching the cache. -/
def loadReservations (st : St) (listOk : Bool) : LoadResult :=
  if listOk then
    { st := { store := st.store, cache := st.store }, toastError := none, thrown := none }
  else
    { st := st, toastError := some "Error al cargar las reservas", thrown := none }

/-- The record persisted by `createReservation`: the `reservationData`
object `{...data, userId: user.uid, createdAt: Timestamp.now()}` together
with the document id Firestore assigns in `addDoc`. -/
def reservationData (data : ReservationInput) (freshId : String) (now : Nat)
    (u : User) : Reservation :=
  { id := freshId, portal := data.portal, floor := data.floor,
    door := data.door, date := data.date, status := data.status,
    createdAt := now, userId := u.uid }

/-- `createReservation(data)`.  `user` is the ambient `useAuth()` user;
`freshId` is the document id Firestore assigns in `addDoc`; `now` is
`Timestamp.now()`; `addOk` is the outcome of the `addDoc` I/O and
`listOk` that of the `getDocs` inside the trailing `loadReservations()`.
The checks read the provider's `reservations` state, i.e. the cache. -/
def createReservation (user : Option User) (st : St) (data : ReservationInput)
    (freshId : String) (now : Nat) (addOk listOk : Bool) : CreateResult :=
  match user with
  | none => { st := st, thrown := some .unauthenticated }
  | some u =>
    if (st.cache.find? (fun r => r.date == data.date)).isSome then
      { st := st, thrown := some .dateAlreadyReserved }
    else if 2 ≤ getWeeklyApartmentReservationsCount st.cache
                  data.portal data.floor data.door data.date then
      { st := st, thrown := some .weeklyQuotaExceeded }
    else if addOk then
      { st := (loadReservations
          { store := st.store ++ [reservationData data freshId now u],
            cache := st.cache } listOk).st,
        thrown := none }
    else
      { st := st, thrown := some .storeError }

/-- Which toast path `cancelReservation` took:
`unauthenticated` = 'Debes iniciar sesión para cancelar una reserva',
`notFound` = 'Reserva no encontrada',
`forbidden` = 'Solo puedes cancelar tus propias reservas',
`storeError` = 'Error al cancelar la reserva' (the `deleteDoc` failure,
caught and not rethrown), `canceled` = 'Reserva cancelada con éxito'. -/
inductive CancelSignal where
  | unauthenticated
  | notFound
  | forbidden
  | storeError
  | canceled
deriving DecidableEq, Repr

/-- Result of a `cancelReservation` call.  Every code path either
`return`s early or catches the store error, so `thrown` — the exception
propagating to the immediate caller — is `none` in every branch. -/
structure CancelResult where
  st : St
  signal : CancelSignal
  thrown : Option CancelSignal
deriving DecidableEq, Repr

/-- `cancelReservation(id)`.  `delOk` is the outcome of the `deleteDoc`
I/O and `listOk` that of the `getDocs` inside the trailing
`loadReservations()`.  Lookup and the ownership check read the cache;
`deleteDoc` removes the document with that id from the store. -/
def cancelReservation (user : Option User) (st : St) (id : String)
    (delOk listOk : Bool) : CancelResult :=
  match user with
  | none => { st := st, signal := .unauthenticated, thrown := none }
  | some u =>
    match st.cache.find? (fun r => r.id == id) with
    | none => { st := st, signal := .notFound, thrown := none }
    | some reservation =>
      if reservation.userId != u.uid then
        { st := st, signal := .forbidden, thrown := none }
      else if delOk then
        { st := (loadReservations
                   { store := st.store.filter (fun r => r.id != id), cache := st.cache }
                   listOk).st,
          signal := .canceled, thrown := none }
      else
        { st := st, signal := .storeError, thrown := none }

/-! ### Invariants and the sequential operation model -/

/-- I1: no two reservations in the set have equal `date` (string). -/
def I1 (l : List Reservation) : Prop :=
  l.Pairwise (fun a b => a.date ≠ b.date)

/-- I2: for every unit and every target date, the weekly count is at
most 2. -/
def I2 (l : List Reservation) : Prop :=
  ∀ portal floor door date,
    getWeeklyApartmentReservationsCount l portal floor door date ≤ 2

/-- Sequential single-writer well-formedness: the cache agrees with the
store (every refresh succeeded) and the store satisfies I1 and I2. -/
def Inv (st : St) : Prop :=
  st.cache = st.store ∧ I1 st.store ∧ I2 st.store

/-- One admission-controller operation of the sequential model. -/
inductive Op where
  | create (user : Option User) (data : ReservationInput) (freshId : String) (now : Nat)
  | cancel (user : Option User) (id : String)

/-- Run one operation with all store I/O succeeding (an operation of a
sequential, single-writer execution in which the store is available). -/
def runOp (st : St) : Op → St
  | .create user data freshId now => (createReservation user st data freshId now true true).st
  | .cancel user id => (cancelReservation user st id true true).st

/-- Run a sequence of operations. -/
def runOps (st : St) (ops : List Op) : St :=
  ops.foldl runOp st

/-- Spec-side weekly count, written from §4.1 of the spec: the number of
reservations whose `date` lies in the same Monday-through-Sunday calendar
week as the target date (same Monday) and whose `portal` and `floor`
equal the arguments exactly and whose `door` matches case-insensitively.
To be compared with `getWeeklyApartmentReservationsCount`. -/
def specWeeklyCount (reservations : List Reservation)
    (portal floor door date : String) : Nat :=
  match parseISO date with
  | none => 0
  | some t =>
    (reservations.filter (fun res =>
      match parseISO res.date with
      | none => false
      | some rd =>
        mondayOf rd == mondayOf t &&
        res.portal == portal && res.floor == floor &&
        toUpperCase res.door == toUpperCase door)).length

/-- Relation between two reservations that differ at most in the letter
case of `door` (and in the fields irrelevant to the weekly count). -/
def sameUnitDoorCase (a b : Reservation) : Prop :=
  a.portal = b.portal ∧ a.floor = b.floor ∧ a.date = b.date ∧
  toUpperCase a.door = toUpperCase b.door

/-! ### Concrete fixtures (spec §8 scenarios) -/

/-- Monday 2024-01-01, unit (P1, 2, A), owned by userX. -/
def rMon : Reservation :=
  { id := "a1", portal := "P1", floor := "2", door := "A", date := "2024-01-01",
    status := .confirmed, createdAt := 0, userId := "userX" }

/-- Wednesday 2024-01-03, same unit with lower-case door label. -/
def rWed : Reservation :=
  { id := "a2", portal := "P1", floor := "2", door := "a", date := "2024-01-03",
    status := .confirmed, createdAt := 1, userId := "userX" }

/-- Sunday 2024-01-07, unit (P1, 2, A). -/
def rSun : Reservation :=
  { id := "a3", portal := "P1", floor := "2", door := "A", date := "2024-01-07",
    status := .confirmed, createdAt := 2, userId := "userX" }

/-- Monday 2024-01-08 (the next week), unit (P1, 2, A). -/
def rNextMon : Reservation :=
  { id := "a4", portal := "P1", floor := "2", door := "A", date := "2024-01-08",
    status := .confirmed, createdAt := 3, userId := "userX" }

/-- A reservation on floor "B", for the floor case-sensitivity check. -/
def rFloorB : Reservation :=
  { id := "b0", portal := "P1", floor := "B", door := "A", date := "2024-01-01",
    status := .confirmed, createdAt := 4, userId := "userX" }

/-- Saturday 2024-01-06 written in ISO basic format `YYYYMMDD`. -/
def rBasic : Reservation :=
  { id := "b1", portal := "P1", floor := "2", door := "A", date := "20240106",
    status := .confirmed, createdAt := 5, userId := "userX" }

/-- Scenario A state: unit (P1, 2, A) holds Monday and Wednesday. -/
def stA : St := { store := [rMon, rWed], cache := [rMon, rWed] }

/-- Scenario A request: same unit, Friday 2024-01-05. -/
def inputFri : ReservationInput :=
  { portal := "P1", floor := "2", door := "A", date := "2024-01-05",
    status := .confirmed }

/-! ### Week-arithmetic lemmas -/

theorem mondayOf_le (n : Int) : mondayOf n ≤ n := by
  unfold mondayOf; omega

theorem le_mondayOf_add_six (n : Int) : n ≤ mondayOf n + 6 := by
  unfold mondayOf; omega

/-- Any day inside the Monday week window of `t` has the same Monday. -/
theorem mondayOf_of_mem_week {t x : Int} (h1 : mondayOf t ≤ x)
    (h2 : x ≤ mondayOf t + 6) : mondayOf x = mondayOf t := by
  unfold mondayOf at h1 h2 ⊢; omega

/-- Two days lie in the same Monday-started window iff they share their
Monday. -/
theorem mem_week_iff_mondayOf_eq (t x : Int) :
    (mondayOf t ≤ x ∧ x ≤ mondayOf t + 6) ↔ mondayOf x = mondayOf t := by
  constructor
  · exact fun h => mondayOf_of_mem_week h.1 h.2
  · intro h
    exact ⟨h ▸ mondayOf_le x, h ▸ le_mondayOf_add_six x⟩

/-! ### Lemmas about the weekly count -/

theorem matchesWeekUnit_eq_true_iff (portal floor door : String)
    (weekStart weekEnd : Int) (res : Reservation) :
    matchesWeekUnit portal floor door weekStart weekEnd res = true ↔
      ∃ rd, parseISO res.date = some rd ∧ weekStart ≤ rd ∧ rd ≤ weekEnd ∧
        res.portal = portal ∧ res.floor = floor ∧
        toUpperCase res.door = toUpperCase door := by
  unfold matchesWeekUnit
  cases h : parseISO res.date <;> simp [h, and_assoc]

/-- The count only depends on the query through the week window of the
parsed target date and the unit (portal, floor, upper-cased door). -/
theorem getWeekly_congr {l : List Reservation}
    {portal floor door date portal2 floor2 door2 date2 : String} {t t2 : Int}
    (h : parseISO date = some t) (h2 : parseISO date2 = some t2)
    (hw : mondayOf t = mondayOf t2) (hp : portal = portal2)
    (hf : floor = floor2) (hd : toUpperCase door = toUpperCase door2) :
    getWeeklyApartmentReservationsCount l portal floor door date =
      getWeeklyApartmentReservationsCount l portal2 floor2 door2 date2 := by
  unfold getWeeklyApartmentReservationsCount
  rw [h, h2]
  simp only
  congr 1
  apply List.filter_congr
  intro res _
  unfold matchesWeekUnit
  cases parseISO res.date
  · rfl
  · rw [hw, hp, hf, hd]

/-- Appending one reservation changes the count by 1 when the new record
matches the query, and by 0 otherwise. -/
theorem getWeekly_append_single {l : List Reservation} {r : Reservation}
    {portal floor door date : String} {t : Int} (h : parseISO date = some t) :
    getWeeklyApartmentReservationsCount (l ++ [r]) portal floor door date =
      getWeeklyApartmentReservationsCount l portal floor door date +
        (if matchesWeekUnit portal floor door (mondayOf t) (mondayOf t + 6) r
         then 1 else 0) := by
  unfold getWeeklyApartmentReservationsCount
  rw [h]
  simp only [List.filter_append, List.length_append]
  congr 1
  by_cases hm : matchesWeekUnit portal floor door (mondayOf t) (mondayOf t + 6) r
  · simp [List.filter, hm]
  · simp [List.filter, hm]

/-- The count is monotone under sublists. -/
theorem getWeekly_sublist_le {l1 l2 : List Reservation} (h : l1.Sublist l2)
    (portal floor door date : String) :
    getWeeklyApartmentReservationsCount l1 portal floor door date ≤
      getWeeklyApartmentReservationsCount l2 portal floor door date := by
  unfold getWeeklyApartmentReservationsCount
  cases parseISO date
  · exact Nat.le_refl 0
  · exact (h.filter _).length_le

/-- An unparsable target date always yields count 0. -/
theorem getWeekly_of_parse_none {date : String} (h : parseISO date = none)
    (l : List Reservation) (portal floor door : String) :
    getWeeklyApartmentReservationsCount l portal floor door date = 0 := by
  unfold getWeeklyApartmentReservationsCount
  rw [h]

/-! ### Invariant preservation lemmas -/

theorem I1_append_of_fresh {l : List Reservation} {rec : Reservation}
    (hI1 : I1 l) (hfresh : ∀ r ∈ l, r.date ≠ rec.date) : I1 (l ++ [rec]) := by
  unfold I1 at hI1 ⊢
  rw [List.pairwise_append]
  refine ⟨hI1, List.pairwise_singleton _ _, ?_⟩
  intro a ha b hb
  simp only [List.mem_singleton] at hb
  subst hb
  exact hfresh a ha

/-- If a new record built from the request data is appended after the
quota check passed, every unit's weekly count stays at most 2: a query
the new record matches targets the same week and unit as the checked
query, so both counts agree. -/
theorem I2_append_of_quota {l : List Reservation} {data : ReservationInput}
    {rec : Reservation}
    (hport : rec.portal = data.portal) (hfl : rec.floor = data.floor)
    (hdoor : rec.door = data.door) (hdate : rec.date = data.date)
    (hq : ¬ 2 ≤ getWeeklyApartmentReservationsCount l
            data.portal data.floor data.door data.date)
    (hI2 : I2 l) : I2 (l ++ [rec]) := by
  intro p f d dt
  cases h : parseISO dt with
  | none => rw [getWeekly_of_parse_none h]; omega
  | some t =>
    rw [getWeekly_append_single h]
    by_cases hm : matchesWeekUnit p f d (mondayOf t) (mondayOf t + 6) rec
    · have hm2 := hm
      rw [matchesWeekUnit_eq_true_iff] at hm2
      obtain ⟨rd, hrd, hw1, hw2, hp, hf, hd⟩ := hm2
      have hrd2 : parseISO data.date = some rd := hdate ▸ hrd
      have hcongr : getWeeklyApartmentReservationsCount l p f d dt =
          getWeeklyApartmentReservationsCount l
            data.portal data.floor data.door data.date :=
        getWeekly_congr h hrd2 (mondayOf_of_mem_week hw1 hw2).symm
          (hp.symm.trans hport) (hf.symm.trans hfl)
          (hd.symm.trans (congrArg toUpperCase hdoor))
      rw [if_pos hm, hcongr]
      omega
    · rw [if_neg hm]
      have := hI2 p f d dt
      omega

/-- One all-I/O-successful operation preserves the sequential
well-formedness invariant. -/
theorem runOp_preserves_Inv {st : St} (h : Inv st) (op : Op) :
    Inv (runOp st op) := by
  obtain ⟨hcs, hI1, hI2⟩ := h
  cases op with
  | create user data freshId now =>
    cases user with
    | none => exact ⟨hcs, hI1, hI2⟩
    | some u =>
      simp only [runOp, createReservation]
      by_cases hdup : (st.cache.find? (fun r => r.date == data.date)).isSome
      · rw [if_pos hdup]
        exact ⟨hcs, hI1, hI2⟩
      · rw [if_neg hdup]
        by_cases hq : 2 ≤ getWeeklyApartmentReservationsCount st.cache
            data.portal data.floor data.door data.date
        · rw [if_pos hq]
          exact ⟨hcs, hI1, hI2⟩
        · rw [if_neg hq]
          simp only [if_true, loadReservations]
          have hfresh : ∀ r ∈ st.store, r.date ≠ data.date := by
            rw [Option.not_isSome_iff_eq_none, List.find?_eq_none] at hdup
            intro r hr
            have := hdup r (hcs ▸ hr)
            simpa using this
          rw [hcs] at hq
          refine ⟨rfl, I1_append_of_fresh hI1 hfresh, ?_⟩
          exact I2_append_of_quota rfl rfl rfl rfl hq hI2
  | cancel user id =>
    cases user with
    | none => exact ⟨hcs, hI1, hI2⟩
    | some u =>
      simp only [runOp, cancelReservation]
      cases hfind : st.cache.find? (fun r => r.id == id) with
      | none => exact ⟨hcs, hI1, hI2⟩
      | some r =>
        dsimp only
        by_cases hown : r.userId != u.uid
        · rw [if_pos hown]
          exact ⟨hcs, hI1, hI2⟩
        · rw [if_neg hown]
          simp only [if_true, loadReservations]
          refine ⟨rfl, ?_, ?_⟩
          · exact hI1.sublist (List.filter_sublist st.store)
          · intro p f d dt
            exact Nat.le_trans
              (getWeekly_sublist_le (List.filter_sublist st.store) p f d dt)
              (hI2 p f d dt)

/-- A sequence of all-I/O-successful operations preserves the invariant. -/
theorem runOps_preserves_Inv {st : St} (h : Inv st) (ops : List Op) :
    Inv (runOps st ops) := by
  induction ops generalizing st with
  | nil => exact h
  | cons op ops ih => exact ih (runOp_preserves_Inv h op)

theorem I1_nil : I1 [] := List.Pairwise.nil

theorem I2_nil : I2 [] := by
  intro portal floor door date
  cases h : parseISO date with
  | none => rw [getWeekly_of_parse_none h]; omega
  | some t =>
    unfold getWeeklyApartmentReservationsCount
    rw [h]
    simp

/-- A create whose requested date is already in the cached view is
rejected with `dateAlreadyReserved` and leaves the state unchanged. -/
theorem createReservation_of_dup {u : User} {st : St} {data : ReservationInput}
    (freshId : String) (now : Nat) (addOk listOk : Bool)
    (hex : ∃ r ∈ st.cache, r.date = data.date) :
    createReservation (some u) st data freshId now addOk listOk =
      { st := st, thrown := some CreateErr.dateAlreadyReserved } := by
  have hdup : (st.cache.find? (fun r => r.date == data.date)).isSome := by
    rw [List.find?_isSome]
    obtain ⟨r, hr, hrd⟩ := hex
    exact ⟨r, hr, by simp [hrd]⟩
  simp only [createReservation]
  rw [if_pos hdup]

/-- Characterization of a create that threw nothing: both checks passed,
`addDoc` succeeded, and the result state is the refreshed state over the
store extended with the new record. -/
theorem createReservation_success {u : User} {st : St} {data : ReservationInput}
    {freshId : String} {now : Nat} {addOk listOk : Bool}
    (h : (createReservation (some u) st data freshId now addOk listOk).thrown = none) :
    (∀ r ∈ st.cache, r.date ≠ data.date) ∧
    ¬ 2 ≤ getWeeklyApartmentReservationsCount st.cache
            data.portal data.floor data.door data.date ∧
    addOk = true ∧
    createReservation (some u) st data freshId now addOk listOk =
      { st := (loadReservations
          { store := st.store ++ [reservationData data freshId now u],
            cache := st.cache } listOk).st,
        thrown := none } := by
  simp only [createReservation] at h ⊢
  by_cases hdup : (st.cache.find? (fun r => r.date == data.date)).isSome
  · rw [if_pos hdup] at h
    simp at h
  · rw [if_neg hdup] at h ⊢
    by_cases hq : 2 ≤ getWeeklyApartmentReservationsCount st.cache
        data.portal data.floor data.door data.date
    · rw [if_pos hq] at h
      simp at h
    · rw [if_neg hq] at h ⊢
      cases addOk with
      | false => simp at h
      | true =>
        refine ⟨?_, hq, rfl, by simp⟩
        rw [Option.not_isSome_iff_eq_none, List.find?_eq_none] at hdup
        intro r hr
        have := hdup r hr
        simpa using this

/-- A create that threw an error leaves the state unchanged. -/
theorem createReservation_st_of_thrown {user : Option User} {st : St}
    {data : ReservationInput} {freshId : String} {now : Nat}
    {addOk listOk : Bool} {e : CreateErr}
    (h : (createReservation user st data freshId now addOk listOk).thrown = some e) :
    (createReservation user st data freshId now addOk listOk).st = st := by
  cases user with
  | none => rfl
  | some u =>
    simp only [createReservation] at h ⊢
    by_cases hdup : (st.cache.find? (fun r => r.date == data.date)).isSome
    · rw [if_pos hdup]
    · rw [if_neg hdup] at h ⊢
      by_cases hq : 2 ≤ getWeeklyApartmentReservationsCount st.cache
          data.portal data.floor data.door data.date
      · rw [if_pos hq]
      · rw [if_neg hq] at h ⊢
        cases addOk with
        | true => simp at h
        | false => simp

/-! ### Claim theorems -/

/-- C1: under sequential (single-writer) execution starting from a
reservation set satisfying I1 and I2 (with the cache in sync with the
store), every sequence of createReservation and cancelReservation
operations whose store I/O succeeds preserves both invariants: no two
reservations in the set have equal date, and every unit's weekly count
(portal and floor exact, door case-insensitive, Monday-starting weeks)
stays at most 2. -/
theorem seq_execution_preserves_invariants (st : St)
    (hsync : st.cache = st.store) (h1 : I1 st.store) (h2 : I2 st.store)
    (ops : List Op) :
    I1 (runOps st ops).store ∧ I2 (runOps st ops).store :=
  have h := runOps_preserves_Inv ⟨hsync, h1, h2⟩ ops
  ⟨h.2.1, h.2.2⟩

theorem seq_execution_preserves_invariants_witness :
    I1 (runOps { store := [], cache := [] }
          [Op.create (some { uid := "userX" }) inputFri "f1" 0,
           Op.create (some { uid := "userY" })
             { portal := "P1", floor := "2", door := "a", date := "2024-01-06",
               status := .confirmed } "f2" 1,
           Op.cancel (some { uid := "userX" }) "f1"]).store ∧
    I2 (runOps { store := [], cache := [] }
          [Op.create (some { uid := "userX" }) inputFri "f1" 0,
           Op.create (some { uid := "userY" })
             { portal := "P1", floor := "2", door := "a", date := "2024-01-06",
               status := .confirmed } "f2" 1,
           Op.cancel (some { uid := "userX" }) "f1"]).store :=
  seq_execution_preserves_invariants { store := [], cache := [] }
    rfl I1_nil I2_nil _

/-- C2: `getWeeklyApartmentReservationsCount` returns exactly the number
of reservations whose date lies in the Monday-through-Sunday calendar
week containing the (parsed) target date and whose portal and floor equal
the arguments exactly and whose door equals the door argument
case-insensitively (the spec-side `specWeeklyCount`); in particular a
reservation dated the week's Monday and one dated the following Sunday
are both counted toward a mid-week target, and one dated the Monday after
is not. -/
theorem getWeekly_counts_week_and_unit :
    (∀ (l : List Reservation) (portal floor door date : String),
      getWeeklyApartmentReservationsCount l portal floor door date =
        specWeeklyCount l portal floor door date)
    ∧ getWeeklyApartmentReservationsCount [rMon] "P1" "2" "A" "2024-01-03" = 1
    ∧ getWeeklyApartmentReservationsCount [rSun] "P1" "2" "A" "2024-01-03" = 1
    ∧ getWeeklyApartmentReservationsCount [rNextMon] "P1" "2" "A" "2024-01-03" = 0 := by
  refine ⟨?_, by decide, by decide, by decide⟩
  intro l portal floor door date
  unfold getWeeklyApartmentReservationsCount specWeeklyCount
  cases h : parseISO date with
  | none => rfl
  | some t =>
    dsimp only
    congr 1
    apply List.filter_congr
    intro res _
    unfold matchesWeekUnit
    cases hr : parseISO res.date with
    | none => rfl
    | some rd =>
      dsimp only
      congr 3
      rw [Bool.eq_iff_iff]
      simp only [Bool.and_eq_true, decide_eq_true_eq, beq_iff_eq]
      exact mem_week_iff_mondayOf_eq t rd

/-- C3: for every authenticated user and reservation view, if some
existing reservation has date equal (as a string) to the requested date,
createReservation throws `dateAlreadyReserved` — whatever the unit, the
requester, the quota situation and the store outcomes (the uniqueness
check precedes the quota check); consequently, retrying a create for a
date that a create just accepted throws `dateAlreadyReserved`, never a
silent duplicate. -/
theorem create_rejects_reserved_date :
    (∀ (u : User) (st : St) (data : ReservationInput) (freshId : String)
        (now : Nat) (addOk listOk : Bool),
      (∃ r ∈ st.cache, r.date = data.date) →
      (createReservation (some u) st data freshId now addOk listOk).thrown =
        some CreateErr.dateAlreadyReserved)
    ∧ (∀ (u u2 : User) (st : St) (data data2 : ReservationInput)
        (freshId freshId2 : String) (now now2 : Nat) (addOk2 listOk2 : Bool),
      data2.date = data.date →
      (createReservation (some u) st data freshId now true true).thrown = none →
      (createReservation (some u2)
          (createReservation (some u) st data freshId now true true).st
          data2 freshId2 now2 addOk2 listOk2).thrown =
        some CreateErr.dateAlreadyReserved) := by
  have part1 : ∀ (u : User) (st : St) (data : ReservationInput) (freshId : String)
      (now : Nat) (addOk listOk : Bool),
      (∃ r ∈ st.cache, r.date = data.date) →
      (createReservation (some u) st data freshId now addOk listOk).thrown =
        some CreateErr.dateAlreadyReserved := by
    intro u st data freshId now addOk listOk hex
    rw [createReservation_of_dup freshId now addOk listOk hex]
  refine ⟨part1, ?_⟩
  intro u u2 st data data2 freshId freshId2 now now2 addOk2 listOk2 hdate hok
  obtain ⟨hfresh, hq, haddOk, heq⟩ := createReservation_success hok
  apply part1
  rw [heq]
  simp only [loadReservations, if_true]
  refine ⟨reservationData data freshId now u, ?_, hdate.symm⟩
  exact List.mem_append_right _ (List.mem_singleton.mpr rfl)

theorem create_rejects_reserved_date_witness :
    (∃ r ∈ stA.cache, r.date =
      ({ portal := "P7", floor := "1", door := "C", date := "2024-01-03",
         status := .confirmed } : ReservationInput).date) ∧
    (createReservation (some { uid := "userY" }) stA
      { portal := "P7", floor := "1", door := "C", date := "2024-01-03",
        status := .confirmed } "f9" 7 true true).thrown =
      some CreateErr.dateAlreadyReserved :=
  ⟨by decide,
   create_rejects_reserved_date.1 { uid := "userY" } stA
     { portal := "P7", floor := "1", door := "C", date := "2024-01-03",
       status := .confirmed } "f9" 7 true true (by decide)⟩

/-- C4: for every authenticated user and request whose date is not
already reserved in the view, createReservation throws
`weeklyQuotaExceeded` iff the weekly count for the requested unit and
date over the same view is at least 2; with fewer than 2 same-unit
reservations that week the quota check passes. -/
theorem create_quota_check_iff (u : User) (st : St) (data : ReservationInput)
    (freshId : String) (now : Nat) (addOk listOk : Bool)
    (hnodup : ¬ ∃ r ∈ st.cache, r.date = data.date) :
    (createReservation (some u) st data freshId now addOk listOk).thrown =
        some CreateErr.weeklyQuotaExceeded ↔
      2 ≤ getWeeklyApartmentReservationsCount st.cache
            data.portal data.floor data.door data.date := by
  have hdup : ¬ (st.cache.find? (fun r => r.date == data.date)).isSome = true := by
    intro hcontra
    apply hnodup
    obtain ⟨x, hx, hpx⟩ := List.find?_isSome.mp hcontra
    exact ⟨x, hx, by simpa using hpx⟩
  simp only [createReservation]
  rw [if_neg hdup]
  by_cases hq : 2 ≤ getWeeklyApartmentReservationsCount st.cache
      data.portal data.floor data.door data.date
  · rw [if_pos hq]
    simp [hq]
  · rw [if_neg hq]
    cases addOk with
    | false => simp [hq]
    | true => simp [hq]

/-- Whatever the outcome of the reload, the refreshed state's store is
the pre-refresh store. -/
theorem loadReservations_store (st : St) (listOk : Bool) :
    (loadReservations st listOk).st.store = st.store := by
  cases listOk <;> rfl

/-- C5 counterexample: a cancel rejected as `forbidden` (the reservation
belongs to userX, the requester is userY) signals the rejection only
through a toast; nothing is returned or raised to the immediate caller —
the promise resolves normally — so the claim's propagation clause fails. -/
theorem cancel_rejection_not_raised :
    (cancelReservation (some { uid := "userY" }) stA "a1" true true).signal =
        CancelSignal.forbidden ∧
    (cancelReservation (some { uid := "userY" }) stA "a1" true true).thrown = none ∧
    (cancelReservation (some { uid := "userY" }) stA "a1" true true).st = stA := by
  decide

/-- C5 (amended): cancelReservation deletes the record iff an acting
user is present, the cached view holds a reservation with that id, its
userId equals the acting user's id, and the store delete succeeds;
otherwise it signals `unauthenticated`, `notFound`, `forbidden` or
`storeError` respectively — via user notification only, the promise
always resolving normally with nothing raised to the immediate caller —
and leaves the reservation set unchanged. -/
theorem cancel_characterization (user : Option User) (st : St) (id : String)
    (delOk listOk : Bool) :
    (cancelReservation user st id delOk listOk).thrown = none
    ∧ (user = none →
        (cancelReservation user st id delOk listOk).signal =
            CancelSignal.unauthenticated ∧
        (cancelReservation user st id delOk listOk).st = st)
    ∧ (∀ u, user = some u →
        st.cache.find? (fun r => r.id == id) = none →
        (cancelReservation user st id delOk listOk).signal = CancelSignal.notFound ∧
        (cancelReservation user st id delOk listOk).st = st)
    ∧ (∀ u r, user = some u →
        st.cache.find? (fun r2 => r2.id == id) = some r →
        r.userId ≠ u.uid →
        (cancelReservation user st id delOk listOk).signal = CancelSignal.forbidden ∧
        (cancelReservation user st id delOk listOk).st = st)
    ∧ (∀ u r, user = some u →
        st.cache.find? (fun r2 => r2.id == id) = some r →
        r.userId = u.uid → delOk = false →
        (cancelReservation user st id delOk listOk).signal = CancelSignal.storeError ∧
        (cancelReservation user st id delOk listOk).st = st)
    ∧ (∀ u r, user = some u →
        st.cache.find? (fun r2 => r2.id == id) = some r →
        r.userId = u.uid → delOk = true →
        (cancelReservation user st id delOk listOk).signal = CancelSignal.canceled ∧
        (cancelReservation user st id delOk listOk).st.store =
          st.store.filter (fun r2 => r2.id != id))
    ∧ ((cancelReservation user st id delOk listOk).signal = CancelSignal.canceled →
        ∃ u r, user = some u ∧
          st.cache.find? (fun r2 => r2.id == id) = some r ∧
          r.userId = u.uid ∧ delOk = true) := by
  cases user with
  | none =>
    refine ⟨rfl, fun _ => ⟨rfl, rfl⟩, ?_, ?_, ?_, ?_, ?_⟩
    · intro u hu; exact absurd hu (by simp)
    · intro u r hu; exact absurd hu (by simp)
    · intro u r hu; exact absurd hu (by simp)
    · intro u r hu; exact absurd hu (by simp)
    · intro hs; exact absurd hs (by simp [cancelReservation])
  | some u =>
    simp only [cancelReservation]
    cases hfind : st.cache.find? (fun r => r.id == id) with
    | none =>
      dsimp only
      refine ⟨rfl, ?_, ?_, ?_, ?_, ?_, ?_⟩
      · intro hu; exact absurd hu (by simp)
      · intro u2 _ _; exact ⟨rfl, rfl⟩
      · intro u2 r _ hr; exact absurd hr (by simp)
      · intro u2 r _ hr; exact absurd hr (by simp)
      · intro u2 r _ hr; exact absurd hr (by simp)
      · intro hs; exact absurd hs (by simp)
    | some r =>
      dsimp only
      by_cases hown : r.userId != u.uid
      · rw [if_pos hown]
        have hne : r.userId ≠ u.uid := by simpa using hown
        refine ⟨rfl, ?_, ?_, ?_, ?_, ?_, ?_⟩
        · intro hu; exact absurd hu (by simp)
        · intro u2 hu2 hr; exact absurd hr (by simp)
        · intro u2 r2 _ _ _; exact ⟨rfl, rfl⟩
        · intro u2 r2 hu2 hr2 hown2
          injection hu2 with hu2
          injection hr2 with hr2
          subst hu2; subst hr2
          exact absurd hown2 (by simp [hne])
        · intro u2 r2 hu2 hr2 hown2
          injection hu2 with hu2
          injection hr2 with hr2
          subst hu2; subst hr2
          exact absurd hown2 (by simp [hne])
        · intro hs; exact absurd hs (by simp)
      · rw [if_neg hown]
        have heq : r.userId = u.uid := by simpa using hown
        cases delOk with
        | false =>
          rw [if_neg (by decide : ¬ ((false : Bool) = true))]
          refine ⟨rfl, ?_, ?_, ?_, ?_, ?_, ?_⟩
          · intro hu; exact absurd hu (by simp)
          · intro u2 hu2 hr; exact absurd hr (by simp)
          · intro u2 r2 hu2 hr2 hne2
            injection hu2 with hu2
            injection hr2 with hr2
            subst hu2; subst hr2
            exact absurd heq hne2
          · intro u2 r2 _ _ _ _; exact ⟨rfl, rfl⟩
          · intro u2 r2 _ _ _ hd; exact absurd hd (by simp)
          · intro hs; exact absurd hs (by simp)
        | true =>
          rw [if_pos (rfl : (true : Bool) = true)]
          refine ⟨rfl, ?_, ?_, ?_, ?_, ?_, ?_⟩
          · intro hu; exact absurd hu (by simp)
          · intro u2 hu2 hr; exact absurd hr (by simp)
          · intro u2 r2 hu2 hr2 hne2
            injection hu2 with hu2
            injection hr2 with hr2
            subst hu2; subst hr2
            exact absurd heq hne2
          · intro u2 r2 _ _ _ hd; exact absurd hd (by simp)
          · intro u2 r2 _ _ _ _
            exact ⟨rfl, loadReservations_store _ listOk⟩
          · intro _
            exact ⟨u, r, rfl, rfl, heq, rfl⟩

theorem cancel_characterization_witness :
    (cancelReservation (some { uid := "userX" }) stA "a1" true true).signal =
        CancelSignal.canceled ∧
    (cancelReservation (some { uid := "userX" }) stA "a1" true true).st.store =
      stA.store.filter (fun r2 => r2.id != "a1") :=
  (cancel_characterization (some { uid := "userX" }) stA "a1" true true).2.2.2.2.2.1
    { uid := "userX" } rMon rfl (by decide) rfl rfl

theorem create_quota_check_iff_witness :
    (¬ ∃ r ∈ stA.cache, r.date = inputFri.date) ∧
    ((createReservation (some { uid := "userY" }) stA inputFri "f1" 5 true true).thrown =
        some CreateErr.weeklyQuotaExceeded ↔
      2 ≤ getWeeklyApartmentReservationsCount stA.cache
            inputFri.portal inputFri.floor inputFri.door inputFri.date) :=
  ⟨by decide,
   create_quota_check_iff { uid := "userY" } stA inputFri "f1" 5 true true (by decide)⟩

/-- C6: createReservation writes to the store only when an acting user
is present and both checks pass: whenever it throws, the state is
unchanged, and when it throws nothing the store gained exactly the new
record, whose status is `confirmed` and whose userId is the acting
user's uid (the input type has no userId field the caller could set). -/
theorem create_writes_only_on_success (user : Option User) (st : St)
    (data : ReservationInput) (freshId : String) (now : Nat)
    (addOk listOk : Bool) :
    (∀ e, (createReservation user st data freshId now addOk listOk).thrown = some e →
      (createReservation user st data freshId now addOk listOk).st = st)
    ∧ (user = none →
      (createReservation user st data freshId now addOk listOk).thrown =
        some CreateErr.unauthenticated)
    ∧ ((createReservation user st data freshId now addOk listOk).thrown = none →
      ∃ u, user = some u ∧
        (∀ r ∈ st.cache, r.date ≠ data.date) ∧
        getWeeklyApartmentReservationsCount st.cache
          data.portal data.floor data.door data.date < 2 ∧
        (createReservation user st data freshId now addOk listOk).st.store =
          st.store ++ [reservationData data freshId now u] ∧
        (reservationData data freshId now u).status = Status.confirmed ∧
        (reservationData data freshId now u).userId = u.uid) := by
  refine ⟨?_, ?_, ?_⟩
  · intro e h
    exact createReservation_st_of_thrown h
  · intro hu
    subst hu
    rfl
  · intro h
    cases user with
    | none => simp [createReservation] at h
    | some u =>
      obtain ⟨hfresh, hq, haddOk, heq⟩ := createReservation_success h
      refine ⟨u, rfl, hfresh, by omega, ?_, ?_, rfl⟩
      · rw [heq]
        exact loadReservations_store _ listOk
      · cases hstat : data.status
        rfl

theorem create_writes_only_on_success_witness :
    (createReservation none stA inputFri "f1" 0 true true).thrown =
        some CreateErr.unauthenticated ∧
    (createReservation none stA inputFri "f1" 0 true true).st = stA :=
  ⟨rfl,
   (create_writes_only_on_success none stA inputFri "f1" 0 true true).1
     CreateErr.unauthenticated rfl⟩

/-- C7 counterexample: an authorized cancel whose `deleteDoc` fails is
caught inside cancelReservation — the user is toasted, nothing is raised
to the immediate caller (the promise resolves normally), so the store
failure is not surfaced as the claim states. -/
theorem store_failure_swallowed_in_cancel :
    (cancelReservation (some { uid := "userX" }) stA "a1" false true).signal =
        CancelSignal.storeError ∧
    (cancelReservation (some { uid := "userX" }) stA "a1" false true).thrown = none ∧
    (cancelReservation (some { uid := "userX" }) stA "a1" false true).st = stA := by
  decide

/-- C7 (amended): when `addDoc` fails inside createReservation (after
both checks pass), the failure is rethrown to the immediate caller as a
terminal failure for the attempt with the state unchanged (no retry, no
recovery); when `deleteDoc` fails inside an authorized cancelReservation,
the failure is caught — signalled to the user only, the promise
resolving normally — and the state is likewise unchanged, again with no
retry. -/
theorem store_failure_propagation :
    (∀ (u : User) (st : St) (data : ReservationInput) (freshId : String)
        (now : Nat) (listOk : Bool),
      (∀ r ∈ st.cache, r.date ≠ data.date) →
      ¬ 2 ≤ getWeeklyApartmentReservationsCount st.cache
              data.portal data.floor data.door data.date →
      createReservation (some u) st data freshId now false listOk =
        { st := st, thrown := some CreateErr.storeError })
    ∧ (∀ (u : User) (st : St) (id : String) (listOk : Bool) (r : Reservation),
      st.cache.find? (fun r2 => r2.id == id) = some r →
      r.userId = u.uid →
      cancelReservation (some u) st id false listOk =
        { st := st, signal := CancelSignal.storeError, thrown := none }) := by
  constructor
  · intro u st data freshId now listOk hfresh hq
    have hdup : ¬ (st.cache.find? (fun r => r.date == data.date)).isSome = true := by
      intro hcontra
      obtain ⟨x, hx, hpx⟩ := List.find?_isSome.mp hcontra
      exact hfresh x hx (by simpa using hpx)
    simp only [createReservation]
    rw [if_neg hdup, if_neg hq, if_neg (by decide : ¬ ((false : Bool) = true))]
  · intro u st id listOk r hfind hown
    simp only [cancelReservation]
    rw [hfind]
    dsimp only
    rw [if_neg (by simp [hown]), if_neg (by decide : ¬ ((false : Bool) = true))]

theorem store_failure_propagation_witness :
    (∀ r ∈ stA.cache, r.date ≠
      ({ portal := "P1", floor := "2", door := "A", date := "2024-01-10",
         status := .confirmed } : ReservationInput).date) ∧
    (¬ 2 ≤ getWeeklyApartmentReservationsCount stA.cache "P1" "2" "A" "2024-01-10") ∧
    createReservation (some { uid := "userX" }) stA
      { portal := "P1", floor := "2", door := "A", date := "2024-01-10",
        status := .confirmed } "f1" 9 false true =
      { st := stA, thrown := some CreateErr.storeError } :=
  ⟨by decide, by decide,
   store_failure_propagation.1 { uid := "userX" } stA
     { portal := "P1", floor := "2", door := "A", date := "2024-01-10",
       status := .confirmed } "f1" 9 true (by decide) (by decide)⟩

/-- C8 counterexample: a failing reload leaves the previous cache
contents intact, but the failure is not propagated to the caller that
triggered the refresh — the catch block logs and toasts and the function
returns normally (`thrown = none`), so the claim's propagation clause
fails. -/
theorem load_failure_not_raised_concrete :
    (loadReservations { store := [rMon], cache := [rWed] } false).st.cache = [rWed] ∧
    (loadReservations { store := [rMon], cache := [rWed] } false).thrown = none := by
  decide

/-- C8 (amended): if the store listing fails during loadReservations,
the previous cache contents (and the store) are left fully intact — no
partial or destructive update — an error toast is shown, and the failure
is swallowed rather than propagated: the caller sees a normal return. -/
theorem load_failure_keeps_cache (st : St) :
    loadReservations st false =
      { st := st, toastError := some "Error al cargar las reservas",
        thrown := none } :=
  rfl

/-- The filter predicate only sees the door through `toUpperCase`. -/
theorem getWeekly_door_case {door door2 : String}
    (hd : toUpperCase door = toUpperCase door2)
    (l : List Reservation) (portal floor date : String) :
    getWeeklyApartmentReservationsCount l portal floor door date =
      getWeeklyApartmentReservationsCount l portal floor door2 date := by
  unfold getWeeklyApartmentReservationsCount
  cases hp : parseISO date with
  | none => rfl
  | some t =>
    dsimp only
    congr 1
    apply List.filter_congr
    intro res _
    unfold matchesWeekUnit
    cases parseISO res.date with
    | none => rfl
    | some rd =>
      dsimp only
      rw [hd]

/-- The filter predicate agrees on two reservations that differ at most
in door letter case. -/
theorem matchesWeekUnit_congr_arg {a b : Reservation} (h : sameUnitDoorCase a b)
    (portal floor door : String) (weekStart weekEnd : Int) :
    matchesWeekUnit portal floor door weekStart weekEnd a =
      matchesWeekUnit portal floor door weekStart weekEnd b := by
  obtain ⟨h1, h2, h3, h4⟩ := h
  unfold matchesWeekUnit
  rw [h1, h2, h3, h4]

/-- The count agrees on two reservation lists that are pointwise equal
up to door letter case. -/
theorem getWeekly_forall2 {l l2 : List Reservation}
    (h : List.Forall₂ sameUnitDoorCase l l2) (portal floor door date : String) :
    getWeeklyApartmentReservationsCount l portal floor door date =
      getWeeklyApartmentReservationsCount l2 portal floor door date := by
  unfold getWeeklyApartmentReservationsCount
  cases hp : parseISO date with
  | none => rfl
  | some t =>
    dsimp only
    induction h with
    | nil => rfl
    | cons hab htail ih =>
      simp only [List.filter_cons, apply_ite List.length, List.length_cons]
      rw [matchesWeekUnit_congr_arg hab, ih]

/-- C9: the weekly count and the create quota decision are invariant
under changing the letter case of the door argument and of the stored
reservations' door fields ("a" and "A" name the same unit), while portal
and floor are compared exactly and case-sensitively, so changing their
case can change the result. -/
theorem door_case_insensitive_unit_matching :
    (∀ (l : List Reservation) (portal floor door door2 date : String),
      toUpperCase door = toUpperCase door2 →
      getWeeklyApartmentReservationsCount l portal floor door date =
        getWeeklyApartmentReservationsCount l portal floor door2 date)
    ∧ (∀ (l l2 : List Reservation), List.Forall₂ sameUnitDoorCase l l2 →
      ∀ (portal floor door date : String),
        getWeeklyApartmentReservationsCount l portal floor door date =
          getWeeklyApartmentReservationsCount l2 portal floor door date)
    ∧ (∀ (u : User) (st : St) (data : ReservationInput) (door2 freshId : String)
        (now : Nat) (addOk listOk : Bool),
      toUpperCase data.door = toUpperCase door2 →
      (createReservation (some u) st data freshId now addOk listOk).thrown =
        (createReservation (some u) st { data with door := door2 }
          freshId now addOk listOk).thrown)
    ∧ getWeeklyApartmentReservationsCount [rMon] "P1" "2" "a" "2024-01-01" =
        getWeeklyApartmentReservationsCount [rMon] "P1" "2" "A" "2024-01-01"
    ∧ getWeeklyApartmentReservationsCount [rMon] "p1" "2" "A" "2024-01-01" ≠
        getWeeklyApartmentReservationsCount [rMon] "P1" "2" "A" "2024-01-01"
    ∧ getWeeklyApartmentReservationsCount [rFloorB] "P1" "b" "A" "2024-01-01" ≠
        getWeeklyApartmentReservationsCount [rFloorB] "P1" "B" "A" "2024-01-01" := by
  refine ⟨?_, ?_, ?_, by decide, by decide, by decide⟩
  · intro l portal floor door door2 date hd
    exact getWeekly_door_case hd l portal floor date
  · intro l l2 h portal floor door date
    exact getWeekly_forall2 h portal floor door date
  · intro u st data door2 freshId now addOk listOk hd
    have hcnt : getWeeklyApartmentReservationsCount st.cache
        data.portal data.floor data.door data.date =
        getWeeklyApartmentReservationsCount st.cache
          data.portal data.floor door2 data.date :=
      getWeekly_door_case hd st.cache data.portal data.floor data.date
    simp only [createReservation]
    dsimp only
    by_cases hdup : (st.cache.find? (fun r => r.date == data.date)).isSome
    · rw [if_pos hdup, if_pos hdup]
    · rw [if_neg hdup, if_neg hdup, ← hcnt]
      by_cases hq : 2 ≤ getWeeklyApartmentReservationsCount st.cache
          data.portal data.floor data.door data.date
      · rw [if_pos hq, if_pos hq]
      · rw [if_neg hq, if_neg hq]
        cases addOk with
        | true => rfl
        | false => rfl

theorem door_case_insensitive_unit_matching_witness :
    toUpperCase "a" = toUpperCase "A" ∧
    getWeeklyApartmentReservationsCount stA.cache "P1" "2" "a" "2024-01-05" =
      getWeeklyApartmentReservationsCount stA.cache "P1" "2" "A" "2024-01-05" :=
  ⟨by decide,
   door_case_insensitive_unit_matching.1 stA.cache "P1" "2" "a" "A" "2024-01-05"
     (by decide)⟩

/-- C10: the uniqueness check compares `date` fields by exact string
equality — createReservation throws `dateAlreadyReserved` iff some cached
reservation's date string is equal to the requested one — so two
textually different strings are never treated as the same date by it,
even when they parse to the same calendar day ("20240106" vs
"2024-01-06"): a create for "2024-01-06" over a view holding "20240106"
passes the uniqueness check, while the weekly-quota check parses the
strings and does count the "20240106" record toward that week. -/
theorem uniqueness_string_equality :
    (∀ (u : User) (st : St) (data : ReservationInput) (freshId : String)
        (now : Nat) (addOk listOk : Bool),
      (createReservation (some u) st data freshId now addOk listOk).thrown =
          some CreateErr.dateAlreadyReserved ↔
        ∃ r ∈ st.cache, r.date = data.date)
    ∧ ("20240106" : String) ≠ "2024-01-06"
    ∧ parseISO "20240106" = parseISO "2024-01-06"
    ∧ (createReservation (some { uid := "userY" })
        { store := [rBasic], cache := [rBasic] }
        { portal := "P9", floor := "9", door := "Z", date := "2024-01-06",
          status := .confirmed } "f1" 9 true true).thrown ≠
        some CreateErr.dateAlreadyReserved
    ∧ getWeeklyApartmentReservationsCount [rBasic] "P1" "2" "A" "2024-01-06" = 1 := by
  refine ⟨?_, by decide, by decide, by decide, by decide⟩
  intro u st data freshId now addOk listOk
  constructor
  · intro h
    by_cases hex : ∃ r ∈ st.cache, r.date = data.date
    · exact hex
    · exfalso
      have hdup : ¬ (st.cache.find? (fun r => r.date == data.date)).isSome = true := by
        intro hcontra
        obtain ⟨x, hx, hpx⟩ := List.find?_isSome.mp hcontra
        exact hex ⟨x, hx, by simpa using hpx⟩
      simp only [createReservation] at h
      rw [if_neg hdup] at h
      by_cases hq : 2 ≤ getWeeklyApartmentReservationsCount st.cache
          data.portal data.floor data.door data.date
      · rw [if_pos hq] at h
        simp at h
      · rw [if_neg hq] at h
        cases addOk with
        | true => simp at h
        | false => simp at h
  · intro hex
    rw [createReservation_of_dup freshId now addOk listOk hex]

end SalaGourmet
